import Mathlib

/-!
Shallow embedding of the fusabi-tui-runtime core (cell/buffer model, layout
solver, error overlay, dashboard engine) together with theorems settling the
frozen claims about its natural-language specification.

Machine integers (`u16`, `u32`) are embedded as `Nat`; wrapping casts and
wrapping additions are made explicit with `% 65536` / `% 4294967296`, and
Rust's `saturating_sub` coincides with truncated `Nat` subtraction while
`saturating_add`/`saturating_mul` clamp at `65535`.
-/

namespace FusabiTui

/-- Wrapping-add of two `u16` values (Rust release-mode `+`). -/
def u16add (a b : Nat) : Nat := (a + b) % 65536

/-- Wrapping truncation of a wider value to `u16` (Rust `as u16`). -/
def u16of (a : Nat) : Nat := a % 65536

/-- Saturating `u16` addition (Rust `saturating_add`). -/
def satAdd (a b : Nat) : Nat := min (a + b) 65535

/-- Terminal color, translated from `style.rs` (`enum Color`). -/
inductive Color where
  | black | red | green | yellow | blue | magenta | cyan | white
  | darkGray | lightRed | lightGreen | lightYellow | lightBlue
  | lightMagenta | lightCyan | lightWhite
  | rgb (r g b : Nat)
  | indexed (i : Nat)
  | reset
deriving DecidableEq, Repr

/-- Text modifier bit-set, translated from `style.rs` (`struct Modifier(u16)`). -/
structure Modifier where
  bits : Nat
deriving DecidableEq, Repr

/-- The empty modifier set (`Modifier::EMPTY`). -/
def Modifier.EMPTY : Modifier := ⟨0⟩

/-- `Modifier::insert`: bitwise or of the two bit-sets. -/
def Modifier.insert (m other : Modifier) : Modifier := ⟨m.bits ||| other.bits⟩

/-- A style, translated from `style.rs` (`struct Style`). -/
structure Style where
  fg : Option Color
  bg : Option Color
  modifiers : Modifier
deriving DecidableEq, Repr

/-- `Style::new` / `Style::default`. -/
def Style.new : Style := ⟨none, none, Modifier.EMPTY⟩

/-- A buffer cell, translated from `buffer.rs` (`struct Cell`). -/
structure Cell where
  symbol : String
  fg : Color
  bg : Color
  modifier : Modifier
deriving DecidableEq, Repr

/-- `Cell::default`: a space glyph with reset colors and no modifiers. -/
def Cell.defaultCell : Cell := ⟨" ", Color.reset, Color.reset, Modifier.EMPTY⟩

/-- `Cell::set_style`: fg/bg overwritten only when the style specifies them;
modifiers are unioned. -/
def Cell.set_style (c : Cell) (style : Style) : Cell :=
  let c := match style.fg with
    | some fg => { c with fg := fg }
    | none => c
  let c := match style.bg with
    | some bg => { c with bg := bg }
    | none => c
  { c with modifier := c.modifier.insert style.modifiers }

/-- `Cell::reset`: back to the default glyph, colors and modifiers. -/
def Cell.reset (_ : Cell) : Cell := Cell.defaultCell

/-- An axis-aligned rectangle, translated from `layout.rs` (`struct Rect`).
All four fields are `u16` in the source; the embedding uses `Nat` and takes
explicit `≤ 65535` bounds where a theorem needs them. -/
structure Rect where
  x : Nat
  y : Nat
  width : Nat
  height : Nat
deriving DecidableEq, Repr

/-- `Rect::new`. -/
def Rect.mk4 (x y width height : Nat) : Rect := ⟨x, y, width, height⟩

/-- `Rect::left`. -/
def Rect.left (r : Rect) : Nat := r.x

/-- `Rect::right` (`x.saturating_add(width)`). -/
def Rect.right (r : Rect) : Nat := satAdd r.x r.width

/-- `Rect::top`. -/
def Rect.top (r : Rect) : Nat := r.y

/-- `Rect::bottom` (`y.saturating_add(height)`). -/
def Rect.bottom (r : Rect) : Nat := satAdd r.y r.height

/-- A buffer: a covering `Rect` plus row-major cells, translated from
`buffer.rs` (`struct Buffer`). -/
structure Buffer where
  area : Rect
  content : List Cell
deriving DecidableEq, Repr

/-- `Buffer::new`: all cells default, `width*height` of them. -/
def Buffer.new (area : Rect) : Buffer :=
  ⟨area, List.replicate (area.width * area.height) Cell.defaultCell⟩

/-- `Buffer::index_of`: row-major index, `none` out of bounds. -/
def Buffer.index_of (b : Buffer) (x y : Nat) : Option Nat :=
  if x ≥ b.area.width ∨ y ≥ b.area.height then none
  else some (y * b.area.width + x)

/-- `Buffer::get`: bounds-checked cell read. -/
def Buffer.get (b : Buffer) (x y : Nat) : Option Cell :=
  (b.index_of x y).bind fun i => b.content.get? i

/-- The `if let Some(cell) = self.get_mut(x, y) { ... }` idiom: apply `f` to
the cell at `(x, y)` when in bounds, otherwise leave the buffer unchanged. -/
def Buffer.modifyCell (b : Buffer) (x y : Nat) (f : Cell → Cell) : Buffer :=
  match b.index_of x y with
  | none => b
  | some i => { b with content := b.content.set i (f ((b.content.get? i).getD Cell.defaultCell)) }

/-- One row-copy step of `Buffer::resize`: copy the overlapping cells of row
`y` from the old content into the new content. -/
def resizeCopyRow (oldW newW : Nat) (oldContent : List Cell) (y : Nat)
    (acc : List Cell) : List Cell :=
  (List.range (min oldW newW)).foldl
    (fun acc x => acc.set (y * newW + x) ((oldContent.get? (y * oldW + x)).getD Cell.defaultCell))
    acc

/-- `Buffer::resize`: fresh default grid of the new size, with the overlapping
top-left sub-rectangle copied from the old content. -/
def Buffer.resize (b : Buffer) (area : Rect) : Buffer :=
  let newContent := List.replicate (area.width * area.height) Cell.defaultCell
  let newContent :=
    (List.range (min b.area.height area.height)).foldl
      (fun acc y => resizeCopyRow b.area.width area.width b.content y acc) newContent
  ⟨area, newContent⟩

/-- `Buffer::set_style`: style-merge over every in-bounds cell of the area. -/
def Buffer.set_style (b : Buffer) (area : Rect) (style : Style) : Buffer :=
  (List.range' area.top (area.bottom - area.top)).foldl
    (fun b y =>
      (List.range' area.left (area.right - area.left)).foldl
        (fun b x => b.modifyCell x y (fun c => c.set_style style)) b)
    b

/-- Cursor advance of `set_string`: `current_x += width as u16` with `u16`
wrapping. -/
def advanceCursor (cx width : Nat) : Nat := u16add cx (u16of width)

/-- The continuation-clearing loop of `set_string`: `for i in 1..width`,
empty the glyph of the cell at `current_x - width + i` (u16 arithmetic on the
already-advanced cursor). -/
def clearWideTail (b : Buffer) (cx width y : Nat) : Buffer :=
  (List.range' 1 (width - 1)).foldl
    (fun b i =>
      b.modifyCell (u16add ((cx + 65536 - u16of width) % 65536) (u16of i)) y
        (fun c => { c with symbol := "" }))
    b

/-- The character loop of `Buffer::set_string`, one recursive step per source
character; threads the buffer, the cursor and the written count. -/
def setStringGo (w : Char → Nat) (style : Style) (y : Nat) :
    Buffer → Nat → Nat → List Char → Buffer × Nat
  | b, _, written, [] => (b, written)
  | b, cx, written, c :: rest =>
    if cx ≥ b.area.width then (b, written)
    else
      let width := max (w c) 1
      let hit := (b.index_of cx y).isSome
      let b := b.modifyCell cx y (fun cell => { cell with symbol := c.toString }.set_style style)
      let written := if hit then written + 1 else written
      let cx := advanceCursor cx width
      let b := clearWideTail b cx width y
      setStringGo w style y b cx written rest

/-- `Buffer::set_string`, parameterized by the Unicode display-width function
`w` of the `unicode_width` crate (an external dependency; the source applies
`.max(1)` itself). Returns the written buffer and the `written` count. -/
def Buffer.set_string (b : Buffer) (x y : Nat) (s : List Char) (style : Style)
    (w : Char → Nat) : Buffer × Nat :=
  setStringGo w style y b x 0 s

/-- Row-major coordinate enumeration of an area: `(x, y)` for `y` in
`0..height`, `x` in `0..width`, in scan order. -/
def rowMajorCoords (area : Rect) : List (Nat × Nat) :=
  (List.range area.height).flatMap fun y => (List.range area.width).map fun x => (x, y)

/-- `Buffer::diff`: full-redraw fallback when the areas differ, otherwise the
row-major list of differing cells, each entry carrying `other`'s cell. -/
def Buffer.diff (b other : Buffer) : List (Nat × Nat × Cell) :=
  if b.area ≠ other.area then
    (rowMajorCoords other.area).filterMap fun p =>
      (other.get p.1 p.2).map fun c => (p.1, p.2, c)
  else
    (rowMajorCoords b.area).filterMap fun p =>
      if b.get p.1 p.2 ≠ other.get p.1 p.2 then
        (other.get p.1 p.2).map fun c => (p.1, p.2, c)
      else none

/-- Severity of a displayed error, translated from `overlay.rs`
(`enum ErrorSeverity`). -/
inductive ErrorSeverity where
  | error
  | warning
  | info
deriving DecidableEq, Repr

/-- A displayable error message, translated from `overlay.rs`
(`struct ErrorMessage`). -/
structure ErrorMessage where
  title : String
  message : String
  source : Option String
  line : Option Nat
  column : Option Nat
  severity : ErrorSeverity
  hints : List String
deriving DecidableEq, Repr

/-- `ErrorMessage::new`. -/
def ErrorMessage.new (title message : String) : ErrorMessage :=
  ⟨title, message, none, none, none, ErrorSeverity.error, []⟩

/-- The error overlay state machine, translated from `overlay.rs`
(`struct ErrorOverlay`). `Instant`/`Duration` are embedded as `Nat`
milliseconds; operations that read the clock take an explicit `now`. -/
structure ErrorOverlay where
  error : ErrorMessage
  timestamp : Nat
  visible : Bool
  auto_dismiss_after : Option Nat
deriving DecidableEq, Repr

/-- `ErrorOverlay::new`: visible, shown at `now`, manual dismiss only. -/
def ErrorOverlay.new (error : ErrorMessage) (now : Nat) : ErrorOverlay :=
  ⟨error, now, true, none⟩

/-- `ErrorOverlay::with_auto_dismiss`. -/
def ErrorOverlay.with_auto_dismiss (o : ErrorOverlay) (d : Nat) : ErrorOverlay :=
  { o with auto_dismiss_after := some d }

/-- `ErrorOverlay::is_visible`. -/
def ErrorOverlay.is_visible (o : ErrorOverlay) : Bool := o.visible

/-- `ErrorOverlay::dismiss`. -/
def ErrorOverlay.dismiss (o : ErrorOverlay) : ErrorOverlay := { o with visible := false }

/-- `ErrorOverlay::update`: auto-dismiss once the deadline has elapsed. -/
def ErrorOverlay.update (o : ErrorOverlay) (now : Nat) : ErrorOverlay :=
  match o.auto_dismiss_after with
  | some d => if now - o.timestamp ≥ d then { o with visible := false } else o
  | none => o

/-- `ErrorOverlay::centered_rect`, translated from `overlay.rs`: the margin on
each axis is the leftover after the percentage, halved by integer division;
the `u16` products wrap and the subtractions saturate exactly as in the
source. -/
def ErrorOverlay.centered_rect (percent_x percent_y : Nat) (area : Rect) : Rect :=
  let horizontal_margin := (area.width - u16of (area.width * percent_x) / 100) / 2
  let vertical_margin := (area.height - u16of (area.height * percent_y) / 100) / 2
  ⟨u16add area.x horizontal_margin, u16add area.y vertical_margin,
   area.width - u16of (horizontal_margin * 2), area.height - u16of (vertical_margin * 2)⟩

/-- `ErrorOverlay::render`: nothing when hidden, otherwise the error panel
drawn into the rectangle `centered_rect 80 60 area`. The panel-drawing body
(`render_error_panel`) uses the widget crate's `Block`/`Paragraph`/`Text`
types, whose sources are not available here, so it is abstracted as the
function argument `panel`. -/
def ErrorOverlay.render (o : ErrorOverlay) (panel : Rect → Buffer → Buffer)
    (area : Rect) (buf : Buffer) : Buffer :=
  if ¬ o.visible then buf
  else panel (ErrorOverlay.centered_rect 80 60 area) buf

/-- Modelled from the spec: the typed load-error taxonomy
`LoadError \x7bFileNotFound, ReadFailed, ParseFailed, Other\x7d` of §7
(`error.rs` is not under `src/`). -/
inductive LoadErr where
  | fileNotFound (path : String)
  | readFailed (path : String)
  | parseFailed (path : String) (reason : String)
  | other (msg : String)
deriving DecidableEq, Repr

/-- Modelled from the spec: the engine error taxonomy of §7 — load, watch and
render failures plus `InvalidState` (`error.rs` is not under `src/`). -/
inductive EngineError where
  | loadError (e : LoadErr)
  | watchError (msg : String)
  | render (msg : String)
  | invalidState (msg : String)
deriving DecidableEq, Repr

/-- Modelled from the spec: the artifact a `FileLoader` load returns — the
resolved path plus its declared dependency paths (`loader.rs` is not under
`src/`). -/
structure LoadedFile where
  path : String
  dependencies : List String
deriving DecidableEq, Repr

/-- Modelled from the spec: the `FileLoader` of §6 — `load(path)` yields an
artifact plus dependencies or a typed load error, with a per-path cache.
The per-path outcome is the environment function `result`
(`loader.rs` is not under `src/`). -/
structure FileLoader where
  result : String → Except LoadErr LoadedFile
  cache : List (String × LoadedFile)

/-- Modelled from the spec: `FileLoader::load` — on success the entry is
cached; a failure leaves the cache as it was. -/
def FileLoader.load (l : FileLoader) (p : String) : Except LoadErr LoadedFile × FileLoader :=
  match l.result p with
  | .ok f => (.ok f, { l with cache := (l.cache.filter (fun e => e.1 ≠ p)) ++ [(p, f)] })
  | .error e => (.error e, l)

/-- One widening step of cache invalidation: add every cached path that
depends on an already-invalidated path. -/
def growInvalidated (cache : List (String × LoadedFile)) : Nat → List String → List String
  | 0, s => s
  | fuel + 1, s =>
      let more := cache.filterMap fun e =>
        if !(s.contains e.1) && e.2.dependencies.any (fun d => s.contains d) then some e.1
        else none
      if more.isEmpty then s else growInvalidated cache fuel (s ++ more)

/-- Modelled from the spec: `FileLoader::invalidate` — drops the path and its
transitive dependents from the cache, returning the invalidated set. -/
def FileLoader.invalidate (l : FileLoader) (p : String) : List String × FileLoader :=
  let inv := growInvalidated l.cache l.cache.length [p]
  (inv, { l with cache := l.cache.filter (fun e => !(inv.contains e.1)) })

/-- Modelled from the spec: the `FileWatcher` of §6 — a debounce window and a
watch set; registering a path can fail, which the environment function
`failOn` decides (`watcher.rs` is not under `src/`). -/
structure FileWatcher where
  debounce_ms : Nat
  failOn : String → Bool
  watched : List String

/-- Modelled from the spec: `FileWatcher::watch` — adds the path to the watch
set, or fails as the environment dictates. -/
def FileWatcher.watch (w : FileWatcher) (p : String) : Except EngineError FileWatcher :=
  if w.failOn p then .error (.watchError p)
  else .ok { w with watched := if w.watched.contains p then w.watched else w.watched ++ [p] }

/-- Sequentially watch a list of paths, keeping the registrations made before
a failure (the `?`-propagation pattern of `load`/`reload`). -/
def watchAll : FileWatcher → List String → Except EngineError Unit × FileWatcher
  | w, [] => (.ok (), w)
  | w, p :: ps =>
    match w.watch p with
    | .error er => (.error er, w)
    | .ok w2 => watchAll w2 ps

/-- Modelled from the spec: `DashboardState` of §3 — a dirty flag plus a
widget registry (`state.rs` is not under `src/`). -/
structure DashboardState where
  dirty : Bool
  widgets : List String
deriving DecidableEq, Repr

/-- Modelled from the spec: `DashboardState::mark_dirty`. -/
def DashboardState.mark_dirty (s : DashboardState) : DashboardState := { s with dirty := true }

/-- Modelled from the spec: `DashboardState::clear_dirty`. -/
def DashboardState.clear_dirty (s : DashboardState) : DashboardState := { s with dirty := false }

/-- Modelled from the spec: key codes of input events; only `Char` is
dispatched on by the engine (`event.rs` is not under `src/`). -/
inductive KeyCode where
  | char (c : Char)
  | other (n : Nat)
deriving DecidableEq, Repr

/-- Modelled from the spec: key modifier flags (`event.rs` is not under
`src/`). -/
structure KeyModifiers where
  ctrl : Bool
  alt : Bool
  shift : Bool
deriving DecidableEq, Repr

/-- Modelled from the spec: a key press — a code plus modifiers (`event.rs`
is not under `src/`). -/
structure KeyEvent where
  code : KeyCode
  modifiers : KeyModifiers
deriving DecidableEq, Repr

/-- Modelled from the spec: the engine event kinds — file change, resize, key
(`event.rs` is not under `src/`). -/
inductive Event where
  | fileChange (path : String)
  | resize (w h : Nat)
  | key (e : KeyEvent)
deriving DecidableEq, Repr

/-- Modelled from the spec: the abstract action `handle_event` returns —
Quit / Render / None (`event.rs` is not under `src/`). -/
inductive Action where
  | quit
  | render
  | none
deriving DecidableEq, Repr

/-- The `Renderer` capability surface of `renderer.rs`, as a record of
transition functions over an abstract backend state `ρ` (the engine is
generic over `R: Renderer`). `size` takes `&self`; `draw`/`flush` take
`&mut self` and may mutate the backend even when they fail. -/
structure RendererApi (ρ : Type) where
  size : ρ → Except EngineError Rect
  draw : ρ → Buffer → Except EngineError Unit × ρ
  flush : ρ → Except EngineError Unit × ρ

/-- The dashboard engine, translated from `dashboard.rs`
(`struct DashboardEngine<R>`): renderer backend plus its capability record,
loader, optional watcher, state, root path, optional entry file, optional
error overlay, optional render callback. -/
structure DashboardEngine (ρ : Type) where
  rapi : RendererApi ρ
  renderer : ρ
  loader : FileLoader
  watcher : Option FileWatcher
  state : DashboardState
  root_path : String
  entry_file : Option String
  error_overlay : Option ErrorOverlay
  render_callback : Option (Buffer → Rect → DashboardState → Buffer)

/-- Modelled from the spec: `Path::is_absolute` of the standard library,
for the string paths of this embedding. -/
def isAbsolutePath (p : String) : Bool := p.startsWith "/"

/-- Modelled from the spec: `PathBuf::join` of the standard library, for the
string paths of this embedding. -/
def joinPath (root p : String) : String := root ++ "/" ++ p

/-- `DashboardEngine::has_error`: an overlay exists and is visible. -/
def DashboardEngine.has_error (e : DashboardEngine ρ) : Bool :=
  (e.error_overlay.map ErrorOverlay.is_visible).getD false

/-- `DashboardEngine::dismiss_error`: drop the overlay (if any) and mark
dirty. -/
def DashboardEngine.dismiss_error (e : DashboardEngine ρ) : DashboardEngine ρ :=
  if e.error_overlay.isSome then
    { e with error_overlay := Option.none, state := e.state.mark_dirty }
  else e

/-- The path resolution of `DashboardEngine::load`: absolute paths are kept,
relative ones are joined onto the engine's root path. -/
def resolvePath (root entry : String) : String :=
  if isAbsolutePath entry then entry else joinPath root entry

/-- `DashboardEngine::load`, translated from `dashboard.rs`: resolve the
path, load through the `FileLoader`, record the entry file, register entry
and dependencies with the watcher when hot reload is enabled, mark dirty.
Failures propagate with the mutations made so far kept (Rust `?`). -/
def DashboardEngine.load (e : DashboardEngine ρ) (entry : String) :
    Except EngineError Unit × DashboardEngine ρ :=
  let path := resolvePath e.root_path entry
  match e.loader.load path with
  | (.error le, l2) => (.error (.loadError le), { e with loader := l2 })
  | (.ok lf, l2) =>
    let e := { e with loader := l2, entry_file := some lf.path }
    match e.watcher with
    | some w =>
      match watchAll w (lf.path :: lf.dependencies) with
      | (.error er, w2) => (.error er, { e with watcher := some w2 })
      | (.ok _, w2) =>
        (.ok (), { e with watcher := some w2, state := e.state.mark_dirty })
    | Option.none => (.ok (), { e with state := e.state.mark_dirty })

/-- `DashboardEngine::reload`, translated from `dashboard.rs`: invalid-state
error when no entry file is loaded; otherwise invalidate the entry path,
reload it, refresh dependency watches, mark dirty. -/
def DashboardEngine.reload (e : DashboardEngine ρ) :
    Except EngineError Unit × DashboardEngine ρ :=
  match e.entry_file with
  | Option.none => (.error (.invalidState "No entry file loaded"), e)
  | some entry_path =>
    let (_inv, l1) := e.loader.invalidate entry_path
    let e := { e with loader := l1 }
    match e.loader.load entry_path with
    | (.error le, l2) => (.error (.loadError le), { e with loader := l2 })
    | (.ok lf, l2) =>
      let e := { e with loader := l2 }
      match e.watcher with
      | some w =>
        match watchAll w lf.dependencies with
        | (.error er, w2) => (.error er, { e with watcher := some w2 })
        | (.ok _, w2) =>
          (.ok (), { e with watcher := some w2, state := e.state.mark_dirty })
      | Option.none => (.ok (), { e with state := e.state.mark_dirty })

/-- The frame a `render` call paints before handing it to the backend: a
fresh buffer of the given size, painted by the callback (else the loaded /
empty placeholder), with the updated overlay rendered on top when it is
still visible. -/
def DashboardEngine.frame (e : DashboardEngine ρ) (now : Nat)
    (paintPlaceholder paintEmpty : Rect → Buffer → Buffer)
    (panel : Rect → Buffer → Buffer) (size : Rect) : Buffer :=
  let buffer := Buffer.new size
  let buffer := match e.render_callback with
    | some cb => cb buffer size e.state
    | Option.none =>
        if e.entry_file.isSome then paintPlaceholder size buffer
        else paintEmpty size buffer
  match e.error_overlay with
  | some ov =>
      let ov := ov.update now
      if ov.is_visible then ov.render panel size buffer else buffer
  | Option.none => buffer

/-- `DashboardEngine::render`, translated from `dashboard.rs`: query the
renderer size, paint a fresh buffer (callback, else a placeholder), update
and draw the overlay on top when visible, then draw + flush and finally
clear the dirty flag. The built-in placeholder painters and the overlay
panel body use the widget crate, whose sources are not available here, so
they are abstracted as the function arguments `paintPlaceholder`,
`paintEmpty` and `panel`. -/
def DashboardEngine.render (e : DashboardEngine ρ) (now : Nat)
    (paintPlaceholder paintEmpty : Rect → Buffer → Buffer)
    (panel : Rect → Buffer → Buffer) :
    Except EngineError Unit × DashboardEngine ρ :=
  match e.rapi.size e.renderer with
  | .error er => (.error er, e)
  | .ok size =>
    let buffer := e.frame now paintPlaceholder paintEmpty panel size
    let e := { e with error_overlay := e.error_overlay.map (fun ov : ErrorOverlay => ov.update now) }
    match e.rapi.draw e.renderer buffer with
    | (.error er, r2) => (.error er, { e with renderer := r2 })
    | (.ok _, r2) =>
      let e := { e with renderer := r2 }
      match e.rapi.flush e.renderer with
      | (.error er, r3) => (.error er, { e with renderer := r3 })
      | (.ok _, r3) =>
        (.ok (), { e with renderer := r3, state := e.state.clear_dirty })

/-- `DashboardEngine::handle_event`, translated from `dashboard.rs`:
file-change → invalidate + reload + Render; resize → dirty + Render;
Ctrl+C → Quit; Ctrl+R → reload + Render; Ctrl+D → dismiss a visible overlay
and Render, else fall through; anything else → None. -/
def DashboardEngine.handle_event (e : DashboardEngine ρ) (event : Event) :
    Except EngineError Action × DashboardEngine ρ :=
  match event with
  | .fileChange path =>
    let (_inv, l1) := e.loader.invalidate path
    let e := { e with loader := l1 }
    (match e.reload with
     | (.error er, e2) => (.error er, e2)
     | (.ok _, e2) => (.ok .render, e2))
  | .resize _ _ => (.ok .render, { e with state := e.state.mark_dirty })
  | .key k =>
    if k.code = KeyCode.char 'c' ∧ k.modifiers.ctrl then (.ok .quit, e)
    else if k.code = KeyCode.char 'r' ∧ k.modifiers.ctrl then
      match e.reload with
      | (.error er, e2) => (.error er, e2)
      | (.ok _, e2) => (.ok .render, e2)
    else if k.code = KeyCode.char 'd' ∧ k.modifiers.ctrl then
      if e.has_error then (.ok .render, e.dismiss_error)
      else (.ok .none, e)
    else (.ok .none, e)

/-! Claim-side specification functions (written from the spec's words, to be
compared with the definitions translated from the source) and concrete
fixtures used by witnesses. -/

/-- The buffer size invariant of the spec: the cell sequence length equals
`width * height` of the covering area. -/
def Buffer.wf (b : Buffer) : Prop :=
  b.content.length = b.area.width * b.area.height

/-- The cell of a buffer at an in-bounds coordinate (default outside). -/
def cellAt (b : Buffer) (x y : Nat) : Cell :=
  (b.get x y).getD Cell.defaultCell

/-- The spec's description of an equal-area diff: exactly the coordinates
where the cells differ, in row-major scan order, each paired with the second
buffer's cell. -/
def diffSpecEqual (a b : Buffer) : List (Nat × Nat × Cell) :=
  ((rowMajorCoords b.area).filter (fun p => a.get p.1 p.2 ≠ b.get p.1 p.2)).map
    (fun p => (p.1, p.2, cellAt b p.1 p.2))

/-- The spec's description of the area-mismatch diff: every cell of the
second buffer, in row-major scan order. -/
def diffSpecAll (b : Buffer) : List (Nat × Nat × Cell) :=
  (rowMajorCoords b.area).map (fun p => (p.1, p.2, cellAt b p.1 p.2))

/-- The cursor positions at which `set_string` places a character head:
starting at `x`, advancing by each character's display width, stopping the
moment the cursor reaches or exceeds the right edge `W`. -/
def cursorPositions (w : Char → Nat) (W : Nat) : Nat → List Char → List Nat
  | _, [] => []
  | cx, c :: rest =>
    if cx ≥ W then []
    else cx :: cursorPositions w W (advanceCursor cx (max (w c) 1)) rest

/-- The spec's description of the centered overlay rectangle: the leftover
margin after the percentage, halved by integer division, added to the origin
on each axis, with twice the halved margin subtracted from the extent. -/
def centeredRectClaim (percent_x percent_y : Nat) (area : Rect) : Rect :=
  let hm := (area.width - area.width * percent_x / 100) / 2
  let vm := (area.height - area.height * percent_y / 100) / 2
  ⟨area.x + hm, area.y + vm, area.width - 2 * hm, area.height - 2 * vm⟩

/-- Width function fixture giving the glyph `W` a display width of two
columns and every other character one column. -/
def wideW : Char → Nat := fun c => if c = 'W' then 2 else 1

/-- Renderer fixture whose calls all succeed on a 4×2 terminal. -/
def rapiOkUnit : RendererApi Unit :=
  ⟨fun _ => .ok ⟨0, 0, 4, 2⟩, fun u _ => (.ok (), u), fun u => (.ok (), u)⟩

/-- Renderer fixture whose size query fails. -/
def rapiSizeFailUnit : RendererApi Unit :=
  ⟨fun _ => .error (.render "size query failed"), fun u _ => (.ok (), u), fun u => (.ok (), u)⟩

/-- Loader fixture for which every path loads successfully with no
dependencies. -/
def loaderOk : FileLoader := ⟨fun _ => .ok ⟨"/e", []⟩, []⟩

/-- Loader fixture for which every load fails with file-not-found. -/
def loaderFail : FileLoader := ⟨fun _ => .error (.fileNotFound "/missing"), []⟩

/-- A freshly created (visible, manual-dismiss) overlay fixture. -/
def overlayFx : ErrorOverlay := ErrorOverlay.new (ErrorMessage.new "t" "m") 0

/-- Engine fixture: entry file loaded, visible overlay installed, no watcher,
loads succeed. -/
def engineOkOv : DashboardEngine Unit :=
  ⟨rapiOkUnit, (), loaderOk, Option.none, ⟨false, []⟩, "/root", some "/e",
   some overlayFx, Option.none⟩

/-- Engine fixture whose loader fails on every path. -/
def engineLoadFail : DashboardEngine Unit :=
  ⟨rapiOkUnit, (), loaderFail, Option.none, ⟨true, []⟩, "/root", Option.none,
   Option.none, Option.none⟩

/-- Engine fixture whose renderer size query fails, with the dirty flag set. -/
def engineSizeFail : DashboardEngine Unit :=
  ⟨rapiSizeFailUnit, (), loaderOk, Option.none, ⟨true, []⟩, "/root", Option.none,
   Option.none, Option.none⟩

/-- Painter fixture that leaves the buffer unchanged. -/
def idPaint : Rect → Buffer → Buffer := fun _ b => b

/-! Theorems settling the claims. -/

/-- C5 (amended): `DashboardEngine::reload` never destroys or replaces the
installed error overlay — after any `reload`, successful or not, the engine
holds exactly the error overlay it held before the call. -/
theorem c5_reload_preserves_overlay {ρ : Type} (e : DashboardEngine ρ) :
    (e.reload).2.error_overlay = e.error_overlay := by
  unfold DashboardEngine.reload
  rcases e.entry_file with _ | p
  · rfl
  · dsimp only
    rcases e.loader.invalidate p with ⟨inv, l1⟩
    dsimp only
    rcases l1.load p with ⟨res, l2⟩
    rcases res with le | lf
    · rfl
    · dsimp only
      rcases e.watcher with _ | w
      · rfl
      · dsimp only
        rcases watchAll w lf.dependencies with ⟨wres, w2⟩
        rcases wres with er | u <;> rfl

/-- C5 (counterexample to the claim as stated): a concrete engine holding a
visible overlay reloads successfully, yet the previously installed overlay is
still held afterwards. -/
theorem c5_counterexample :
    (engineOkOv.reload).1 = Except.ok () ∧
    (engineOkOv.reload).2.error_overlay = some overlayFx :=
  ⟨rfl, rfl⟩

/-- C7: a key event with code `Char('c')` and the Ctrl modifier set always
yields `Ok(Action::Quit)` from `handle_event`, whatever the engine state. -/
theorem c7_ctrl_c_always_quits {ρ : Type} (e : DashboardEngine ρ)
    (mods : KeyModifiers) (h : mods.ctrl = true) :
    (e.handle_event (Event.key ⟨KeyCode.char 'c', mods⟩)).1 = Except.ok Action.quit := by
  unfold DashboardEngine.handle_event
  simp [h]

/-- C7 witness: the quit theorem applied to a concrete engine and concrete
Ctrl modifiers. -/
theorem c7_ctrl_c_always_quits_witness :
    (⟨true, false, false⟩ : KeyModifiers).ctrl = true ∧
    (engineOkOv.handle_event (Event.key ⟨KeyCode.char 'c', ⟨true, false, false⟩⟩)).1
      = Except.ok Action.quit :=
  ⟨rfl, c7_ctrl_c_always_quits engineOkOv ⟨true, false, false⟩ rfl⟩

/-- C10: when the loader's load of the resolved path fails, `load` returns
that error (wrapped as a load error) and leaves the entry file, the error
overlay, the watcher and the dirty flag exactly as they were. -/
theorem c10_load_failure_no_mutation {ρ : Type} (e : DashboardEngine ρ)
    (entry : String) (er : LoadErr)
    (h : (e.loader.load (resolvePath e.root_path entry)).1 = .error er) :
    (e.load entry).1 = Except.error (EngineError.loadError er) ∧
    (e.load entry).2.entry_file = e.entry_file ∧
    (e.load entry).2.error_overlay = e.error_overlay ∧
    (e.load entry).2.watcher = e.watcher ∧
    (e.load entry).2.state.dirty = e.state.dirty := by
  unfold DashboardEngine.load
  rcases hl : e.loader.load (resolvePath e.root_path entry) with ⟨res, l2⟩
  rw [hl] at h
  simp only at h
  subst h
  simp [hl]

/-- C10 witness: the failure-isolation theorem applied to a concrete engine
whose loader rejects every path. -/
theorem c10_load_failure_no_mutation_witness :
    (engineLoadFail.loader.load (resolvePath engineLoadFail.root_path "a.fsx")).1
      = Except.error (LoadErr.fileNotFound "/missing") ∧
    (engineLoadFail.load "a.fsx").1
      = Except.error (EngineError.loadError (LoadErr.fileNotFound "/missing")) ∧
    (engineLoadFail.load "a.fsx").2.state.dirty = engineLoadFail.state.dirty :=
  ⟨rfl,
   (c10_load_failure_no_mutation engineLoadFail "a.fsx" (LoadErr.fileNotFound "/missing") rfl).1,
   (c10_load_failure_no_mutation engineLoadFail "a.fsx" (LoadErr.fileNotFound "/missing") rfl).2.2.2.2⟩

/-- C8: a visible overlay's `render` draws its panel exactly in the centered
rectangle described by the spec — 80% width / 60% height obtained by
computing the leftover margin, halving it by integer division, adding it to
the origin on each axis and subtracting twice the halved margin from the
extents (the `u16` bounds rule out wrapping). -/
theorem c8_overlay_centered_rect (o : ErrorOverlay) (panel : Rect → Buffer → Buffer)
    (area : Rect) (buf : Buffer) (hv : o.visible = true)
    (hw : area.width * 80 < 65536) (hh : area.height * 60 < 65536)
    (hx : area.x + area.width < 65536) (hy : area.y + area.height < 65536) :
    o.render panel area buf = panel (centeredRectClaim 80 60 area) buf := by
  have hw80 : area.width * 80 % 65536 = area.width * 80 := Nat.mod_eq_of_lt hw
  have hh60 : area.height * 60 % 65536 = area.height * 60 := Nat.mod_eq_of_lt hh
  have hmw : (area.width - area.width * 80 / 100) / 2 * 2 % 65536
      = (area.width - area.width * 80 / 100) / 2 * 2 := Nat.mod_eq_of_lt (by omega)
  have hmh : (area.height - area.height * 60 / 100) / 2 * 2 % 65536
      = (area.height - area.height * 60 / 100) / 2 * 2 := Nat.mod_eq_of_lt (by omega)
  have harea : ErrorOverlay.centered_rect 80 60 area = centeredRectClaim 80 60 area := by
    simp only [ErrorOverlay.centered_rect, centeredRectClaim, u16add, u16of, hw80, hh60,
      hmw, hmh, Rect.mk.injEq]
    refine ⟨?_, ?_, ?_, ?_⟩ <;> omega
  unfold ErrorOverlay.render
  rw [if_neg (by simp [hv]), harea]

/-- C8 witness: the centered-rectangle theorem applied to a concrete visible
overlay on a 100×50 area. -/
theorem c8_overlay_centered_rect_witness :
    overlayFx.visible = true ∧
    overlayFx.render idPaint ⟨0, 0, 100, 50⟩ (Buffer.new ⟨0, 0, 2, 1⟩)
      = idPaint (centeredRectClaim 80 60 ⟨0, 0, 100, 50⟩) (Buffer.new ⟨0, 0, 2, 1⟩) :=
  ⟨rfl,
   c8_overlay_centered_rect overlayFx idPaint ⟨0, 0, 100, 50⟩ (Buffer.new ⟨0, 0, 2, 1⟩)
     rfl (by decide) (by decide) (by decide) (by decide)⟩

/-- C8 (counterexample to the claim as stated, for every area): on the valid
u16 area 1000×50 the `u16` product `width * 80` wraps, so a visible overlay's
render draws its panel at ⟨428, 10, 144, 30⟩ — a 144-column panel — while
the claimed leftover-margin computation gives ⟨100, 10, 800, 30⟩. -/
theorem c8_counterexample :
    overlayFx.visible = true ∧
    (overlayFx.render (fun r _ => Buffer.new r) ⟨0, 0, 1000, 50⟩
        (Buffer.new ⟨0, 0, 2, 1⟩)).area = ⟨428, 10, 144, 30⟩ ∧
    centeredRectClaim 80 60 ⟨0, 0, 1000, 50⟩ = ⟨100, 10, 800, 30⟩ ∧
    (⟨428, 10, 144, 30⟩ : Rect) ≠ ⟨100, 10, 800, 30⟩ :=
  ⟨rfl, rfl, rfl, by decide⟩

/-- `modifyCell` leaves the covering area unchanged. -/
lemma modifyCell_area (b : Buffer) (x y : Nat) (f : Cell → Cell) :
    (b.modifyCell x y f).area = b.area := by
  unfold Buffer.modifyCell
  cases b.index_of x y <;> rfl

/-- A left fold of `modifyCell` steps leaves the covering area unchanged. -/
lemma foldl_modifyCell_area {α : Type} (pos : α → Nat × Nat) (f : α → Cell → Cell) :
    ∀ (l : List α) (b : Buffer),
      (l.foldl (fun b a => b.modifyCell (pos a).1 (pos a).2 (f a)) b).area = b.area := by
  intro l
  induction l with
  | nil => intro b; rfl
  | cons a l ih => intro b; rw [List.foldl_cons, ih, modifyCell_area]

/-- Clearing the continuation cells of a wide glyph leaves the area
unchanged. -/
lemma clearWideTail_area (b : Buffer) (cx width y : Nat) :
    (clearWideTail b cx width y).area = b.area := by
  unfold clearWideTail
  exact foldl_modifyCell_area
    (fun i => (u16add ((cx + 65536 - u16of width) % 65536) (u16of i), y))
    (fun _ c => { c with symbol := "" }) _ b

/-- The written count of the `set_string` character loop: one per character
whose head cell is in bounds, following the cursor positions, on top of the
accumulator. -/
lemma setStringGo_written (w : Char → Nat) (st : Style) (y : Nat) :
    ∀ (s : List Char) (b : Buffer) (cx acc : Nat),
      (setStringGo w st y b cx acc s).2
        = acc + (if y < b.area.height
                 then (cursorPositions w b.area.width cx s).length else 0) := by
  intro s
  induction s with
  | nil => intro b cx acc; simp [setStringGo, cursorPositions]
  | cons c rest ih =>
    intro b cx acc
    by_cases hcx : cx ≥ b.area.width
    · simp [setStringGo, cursorPositions, hcx]
    · rw [setStringGo, if_neg hcx]
      have harea :
          (clearWideTail
            (b.modifyCell cx y fun cell =>
              Cell.set_style { cell with symbol := c.toString } st)
            (advanceCursor cx (max (w c) 1)) (max (w c) 1) y).area = b.area := by
        rw [clearWideTail_area, modifyCell_area]
      rw [ih, harea, cursorPositions, if_neg hcx]
      by_cases hy : y < b.area.height
      · have hhit : (b.index_of cx y).isSome = true := by
          simp [Buffer.index_of, hcx, not_le.mp hcx, hy]
        simp only [hhit, if_true, if_pos hy, List.length_cons]
        omega
      · have hhit : (b.index_of cx y).isSome = false := by
          simp [Buffer.index_of]
          intro
          omega
        simp only [hhit, if_neg hy]
        simp

/-- C2 (amended): `set_string` returns the count of characters whose head
cell was written — one per character placed, even for a wide glyph — and
stops the moment the cursor would reach or exceed the right edge (a start
column at or past the edge writes nothing and returns zero). -/
theorem c2_set_string_written (b : Buffer) (x y : Nat) (s : List Char)
    (st : Style) (w : Char → Nat) :
    (b.set_string x y s st w).2
      = (if y < b.area.height
         then (cursorPositions w b.area.width x s).length else 0) ∧
    (x ≥ b.area.width → b.set_string x y s st w = (b, 0)) := by
  constructor
  · rw [Buffer.set_string, setStringGo_written, Nat.zero_add]
  · intro hx
    cases s with
    | nil => rfl
    | cons c rest => rw [Buffer.set_string, setStringGo, if_pos hx]

/-- C2 witness: the amended count theorem applied at a start column past the
right edge of a concrete buffer. -/
theorem c2_set_string_written_witness :
    5 ≥ (Buffer.new ⟨0, 0, 3, 1⟩).area.width ∧
    (Buffer.new ⟨0, 0, 3, 1⟩).set_string 5 0 ['a'] Style.new wideW
      = (Buffer.new ⟨0, 0, 3, 1⟩, 0) :=
  ⟨by decide,
   (c2_set_string_written (Buffer.new ⟨0, 0, 3, 1⟩) 5 0 ['a'] Style.new wideW).2
     (by decide)⟩

/-- C2 (counterexample to the claim as stated): writing a two-column glyph
into a wide-enough buffer touches two cells (the head and the emptied
continuation cell) yet returns 1, not the claimed two-column span. -/
theorem c2_counterexample :
    ((Buffer.new ⟨0, 0, 10, 1⟩).set_string 0 0 ['W'] Style.new wideW).2 = 1 ∧
    ((Buffer.new ⟨0, 0, 10, 1⟩).set_string 0 0 ['W'] Style.new wideW).1.get 0 0
      ≠ (Buffer.new ⟨0, 0, 10, 1⟩).get 0 0 ∧
    ((Buffer.new ⟨0, 0, 10, 1⟩).set_string 0 0 ['W'] Style.new wideW).1.get 1 0
      ≠ (Buffer.new ⟨0, 0, 10, 1⟩).get 1 0 := by
  decide

/-- Membership in the row-major coordinate enumeration is exactly being in
bounds. -/
lemma mem_rowMajorCoords {area : Rect} {p : Nat × Nat} :
    p ∈ rowMajorCoords area ↔ p.1 < area.width ∧ p.2 < area.height := by
  rcases p with ⟨x, y⟩
  simp [rowMajorCoords, List.mem_flatMap, List.mem_map, List.mem_range]
  constructor
  · rintro ⟨y', hy', x', hx', hx, hy⟩
    subst hx; subst hy
    exact ⟨hx', hy'⟩
  · rintro ⟨hx, hy⟩
    exact ⟨y, hy, x, hx, rfl, rfl⟩

/-- In a well-formed buffer, every in-bounds read succeeds. -/
lemma get_isSome_of_wf {b : Buffer} (hb : b.wf) {x y : Nat}
    (hx : x < b.area.width) (hy : y < b.area.height) :
    (b.get x y).isSome = true := by
  have hidx : y * b.area.width + x < b.content.length := by
    rw [hb]
    calc y * b.area.width + x < (y + 1) * b.area.width := by
          rw [Nat.add_mul, Nat.one_mul]; omega
    _ ≤ b.area.height * b.area.width := Nat.mul_le_mul_right _ hy
    _ = b.area.width * b.area.height := Nat.mul_comm _ _
  have hcond : ¬ (x ≥ b.area.width ∨ y ≥ b.area.height) := by omega
  rw [Buffer.get, Buffer.index_of, if_neg hcond, Option.some_bind]
  rcases hg : b.content.get? (y * b.area.width + x) with _ | c
  · rw [List.get?_eq_none] at hg; omega
  · rfl

/-- On coordinates where the second buffer's read succeeds, the diff-shaped
`filterMap` is the filter-then-map of the spec's description. -/
lemma diff_filterMap_eq (a b : Buffer) :
    ∀ l : List (Nat × Nat), (∀ p ∈ l, (b.get p.1 p.2).isSome = true) →
      (l.filterMap fun p =>
        if a.get p.1 p.2 ≠ b.get p.1 p.2
        then (b.get p.1 p.2).map (fun c => (p.1, p.2, c)) else none)
      = (l.filter fun p => a.get p.1 p.2 ≠ b.get p.1 p.2).map
          (fun p => (p.1, p.2, cellAt b p.1 p.2)) := by
  intro l
  induction l with
  | nil => intro _; rfl
  | cons p l ih =>
    intro hsome
    have hp := hsome p (List.mem_cons_self p l)
    have hrest : ∀ q ∈ l, (b.get q.1 q.2).isSome = true :=
      fun q hq => hsome q (List.mem_cons_of_mem p hq)
    rcases hcell : b.get p.1 p.2 with _ | cb
    · rw [hcell] at hp; cases hp
    · rw [show (p :: l) = [p] ++ l from rfl, List.filterMap_append, List.filter_append,
        List.map_append, ih hrest]
      congr 1
      by_cases hne : a.get p.1 p.2 ≠ b.get p.1 p.2
      · have hne' : ¬ a.get p.1 p.2 = some cb := fun h => hne (h.trans hcell.symm)
        simp [List.filterMap_cons, List.filter_cons, hne, hne', hcell, cellAt]
      · have heq : a.get p.1 p.2 = some cb := (not_not.mp hne).trans hcell
        simp [List.filterMap_cons, List.filter_cons, hne, heq, hcell, cellAt]

/-- On coordinates where the buffer's read succeeds, mapping the read over
the list is the spec's all-cells description. -/
lemma all_filterMap_eq (b : Buffer) :
    ∀ l : List (Nat × Nat), (∀ p ∈ l, (b.get p.1 p.2).isSome = true) →
      (l.filterMap fun p => (b.get p.1 p.2).map (fun c => (p.1, p.2, c)))
        = l.map (fun p => (p.1, p.2, cellAt b p.1 p.2)) := by
  intro l
  induction l with
  | nil => intro _; rfl
  | cons p l ih =>
    intro hsome
    have hp := hsome p (List.mem_cons_self p l)
    have hrest : ∀ q ∈ l, (b.get q.1 q.2).isSome = true :=
      fun q hq => hsome q (List.mem_cons_of_mem p hq)
    rcases hcell : b.get p.1 p.2 with _ | cb
    · rw [hcell] at hp; cases hp
    · rw [show (p :: l) = [p] ++ l from rfl, List.filterMap_append, List.map_append, ih hrest]
      congr 1
      simp [List.filterMap_cons, hcell, cellAt]

/-- C1: for well-formed buffers, `diff` is exactly the spec's description —
on equal areas, the row-major list of differing coordinates each paired with
the second buffer's cell; on differing areas, every cell of the second
buffer; and a buffer's diff against itself is empty. -/
theorem c1_diff_exact (a b : Buffer) (hb : b.wf) :
    (a.area = b.area → a.diff b = diffSpecEqual a b) ∧
    (a.area ≠ b.area → a.diff b = diffSpecAll b) ∧
    b.diff b = [] := by
  refine ⟨?_, ?_, ?_⟩
  · intro heq
    rw [Buffer.diff, if_neg (by simp [heq]), diffSpecEqual, heq]
    exact diff_filterMap_eq a b (rowMajorCoords b.area) (fun p hp => by
      have hm := mem_rowMajorCoords.mp hp
      exact get_isSome_of_wf hb hm.1 hm.2)
  · intro hne
    rw [Buffer.diff, if_pos hne, diffSpecAll]
    exact all_filterMap_eq b (rowMajorCoords b.area) (fun p hp => by
      have hm := mem_rowMajorCoords.mp hp
      exact get_isSome_of_wf hb hm.1 hm.2)
  · rw [Buffer.diff, if_neg (by simp)]
    have : ∀ p : Nat × Nat,
        (if b.get p.1 p.2 ≠ b.get p.1 p.2
         then (b.get p.1 p.2).map (fun c => (p.1, p.2, c)) else none) = none := by
      intro p; simp
    simp only [this]
    simp

/-- C1 witness: the diff theorem applied to two concrete 2×1 buffers that
differ at a single cell. -/
theorem c1_diff_exact_witness :
    (Buffer.new ⟨0, 0, 2, 1⟩).wf ∧
    ((Buffer.new ⟨0, 0, 2, 1⟩).modifyCell 1 0 (fun c => { c with symbol := "X" })).diff
        (Buffer.new ⟨0, 0, 2, 1⟩)
      = diffSpecEqual
          ((Buffer.new ⟨0, 0, 2, 1⟩).modifyCell 1 0 (fun c => { c with symbol := "X" }))
          (Buffer.new ⟨0, 0, 2, 1⟩) :=
  ⟨rfl,
   (c1_diff_exact
      ((Buffer.new ⟨0, 0, 2, 1⟩).modifyCell 1 0 (fun c => { c with symbol := "X" }))
      (Buffer.new ⟨0, 0, 2, 1⟩) rfl).1 rfl⟩

/-- C6: `render` clears the dirty flag only after a successful draw + flush:
a failing size query, draw or flush makes `render` return that very error
with the dirty flag keeping its prior value, and a successful `render`
leaves the dirty flag cleared. -/
theorem c6_render_dirty_discipline {ρ : Type} (e : DashboardEngine ρ) (now : Nat)
    (pp pe panel : Rect → Buffer → Buffer) :
    (∀ er, e.rapi.size e.renderer = .error er →
      (e.render now pp pe panel).1 = Except.error er ∧
      (e.render now pp pe panel).2.state.dirty = e.state.dirty) ∧
    (∀ sz er, e.rapi.size e.renderer = .ok sz →
      (e.rapi.draw e.renderer (e.frame now pp pe panel sz)).1 = .error er →
      (e.render now pp pe panel).1 = Except.error er ∧
      (e.render now pp pe panel).2.state.dirty = e.state.dirty) ∧
    (∀ sz u r2 er, e.rapi.size e.renderer = .ok sz →
      e.rapi.draw e.renderer (e.frame now pp pe panel sz) = (.ok u, r2) →
      (e.rapi.flush r2).1 = .error er →
      (e.render now pp pe panel).1 = Except.error er ∧
      (e.render now pp pe panel).2.state.dirty = e.state.dirty) ∧
    ((e.render now pp pe panel).1 = Except.ok () →
      (e.render now pp pe panel).2.state.dirty = false) := by
  refine ⟨?_, ?_, ?_, ?_⟩
  · intro er hs
    simp [DashboardEngine.render, hs]
  · intro sz er hs hd
    rcases hd2 : e.rapi.draw e.renderer (e.frame now pp pe panel sz) with ⟨res, r2⟩
    rw [hd2] at hd
    simp only at hd
    subst hd
    simp [DashboardEngine.render, hs, hd2]
  · intro sz u r2 er hs hd hf
    rcases hf2 : e.rapi.flush r2 with ⟨fres, r3⟩
    rw [hf2] at hf
    simp only at hf
    subst hf
    simp [DashboardEngine.render, hs, hd, hf2]
  · intro hok
    unfold DashboardEngine.render at hok ⊢
    rcases hs : e.rapi.size e.renderer with er0 | sz
    · rw [hs] at hok
      simp at hok
    · dsimp only
      rcases hd : e.rapi.draw e.renderer (e.frame now pp pe panel sz) with ⟨res, r2⟩
      rw [hs] at hok
      dsimp only at hok
      rw [hd] at hok
      rcases res with er1 | u
      · simp at hok
      · dsimp only at hok ⊢
        rcases hf : e.rapi.flush r2 with ⟨fres, r3⟩
        rw [hf] at hok
        rcases fres with er2 | u2
        · simp at hok
        · simp [DashboardState.clear_dirty]

/-- C6 witness: the dirty-flag theorem applied to a concrete engine whose
size query fails while the dirty flag is set. -/
theorem c6_render_dirty_discipline_witness :
    engineSizeFail.rapi.size engineSizeFail.renderer
      = Except.error (EngineError.render "size query failed") ∧
    (engineSizeFail.render 0 idPaint idPaint idPaint).1
      = Except.error (EngineError.render "size query failed") ∧
    (engineSizeFail.render 0 idPaint idPaint idPaint).2.state.dirty
      = engineSizeFail.state.dirty :=
  ⟨rfl,
   ((c6_render_dirty_discipline engineSizeFail 0 idPaint idPaint idPaint).1
      (EngineError.render "size query failed") rfl).1,
   ((c6_render_dirty_discipline engineSizeFail 0 idPaint idPaint idPaint).1
      (EngineError.render "size query failed") rfl).2⟩

end FusabiTui
